import Mathlib

/-!
Verification development for the rpatchur game-client patcher.

The definitions below are shallow embeddings of the Rust sources under
`src/rpatchur/src/`: the patcher core (`patcher/core.rs`), the cancellation
helpers (`patcher/cancellation.rs`), the command type (`patcher/mod.rs`) and
the native UI status channel (`ui/native.rs`).  Channels are modelled as
explicit queues with a connectedness flag, network probes as oracles, and
the tokio select race as a function of the channel state.
-/

/-- Commands sent from the UI to the patcher thread (`PatcherCommand` in
`patcher/mod.rs`). -/
inductive PatcherCommand where
  | StartUpdate
  | CancelUpdate
  | ResetCache
  | ManualPatch
  | Quit
deriving DecidableEq

/-- Status values pushed from the patcher core to the UI (`PatchingStatus`
in `ui/native.rs`). -/
inductive PatchingStatus where
  | Ready
  | Error (msg : String)
  | DownloadInProgress (nb_downloaded : Nat) (nb_total : Nat) (bytes_per_sec : Nat)
  | InstallationInProgress (nb_installed : Nat) (nb_total : Nat)
  | ManualPatchApplied (file_name : String)
deriving DecidableEq

/-- One entry of a mirror's patch index (`ThorPatchInfo` from the gruf
library, as used by `patcher/core.rs`). -/
structure ThorPatchInfo where
  index : Nat
  file_name : String
deriving DecidableEq

/-- A mirror patch list (`ThorPatchList`), an ordered sequence of entries. -/
abbrev ThorPatchList := List ThorPatchInfo

/-- A downloaded-but-not-yet-applied patch (`PendingPatch` in
`patcher/core.rs`). -/
structure PendingPatch where
  info : ThorPatchInfo
  local_file_path : String
deriving DecidableEq

/-- Persisted patcher cache record (`PatcherCache` in `patcher/cache.rs`),
holding the index of the last successfully applied patch. -/
structure PatcherCache where
  last_patch_index : Nat
deriving DecidableEq

/-- Configured descriptor of one patch mirror (`PatchServerInfo` in
`patcher/config.rs`). -/
structure PatchServerInfo where
  name : String
  plist_url : String
  patch_url : String
deriving DecidableEq

/-- Error type of interruptible patcher functions (`InterruptibleFnError`
in `patcher/cancellation.rs`). -/
inductive InterruptibleFnError where
  | Err (msg : String)
  | Interrupted
deriving DecidableEq

/-- Model of a parsed URL (the `url::Url` type of the url crate).  Only the
fact that parsing succeeded, and the original text, matter here. -/
structure Url where
  raw : String
deriving DecidableEq

/-- Checks that a list of characters is a valid URL scheme: nonempty, an
ASCII letter first, then letters, digits, `+`, `-` or `.`. -/
def validScheme (cs : List Char) : Bool :=
  match cs with
  | [] => false
  | c :: rest =>
    c.isAlpha && rest.all (fun d => d.isAlphanum || d = '+' || d = '-' || d = '.')

/-- Model of `url::Url::parse` from the url crate: an absolute URL must
start with a scheme followed by a colon; an input with no colon-terminated
scheme (such as the empty string) fails with a relative-URL-without-base
error, modelled as `none`. -/
def urlParse (s : String) : Option Url :=
  match s.toList.findIdx? (fun c => c = ':') with
  | none => none
  | some i => if validScheme (s.toList.take i) then some ⟨s⟩ else none

/-- State of the UI-to-core mpsc command channel: the queue of pending
commands and whether the sending end is still connected. -/
structure Chan where
  queue : List PatcherCommand
  connected : Bool
deriving DecidableEq

/-- Outcome of a non-blocking `try_recv` on the command channel. -/
inductive TryRecvResult where
  | ok (c : PatcherCommand)
  | empty
  | disconnected
deriving DecidableEq

/-- Model of `mpsc::Receiver::try_recv`: pop the oldest pending command if
any, report `Empty` on an empty connected channel and `Disconnected` on an
empty channel whose sender is gone. -/
def Chan.try_recv : Chan → TryRecvResult × Chan
  | ⟨c :: rest, conn⟩ => (.ok c, ⟨rest, conn⟩)
  | ⟨[], true⟩ => (.empty, ⟨[], true⟩)
  | ⟨[], false⟩ => (.disconnected, ⟨[], false⟩)

/-- Outcome of a blocking `recv` on the command channel: a command, a
disconnection error, or no outcome yet (the call blocks). -/
inductive RecvOutcome where
  | received (c : PatcherCommand)
  | disconnected
  | blocked
deriving DecidableEq

/-- Model of `mpsc::Receiver::recv`: yields the oldest pending command,
errors when the channel is empty and disconnected, and blocks when the
channel is empty but still connected. -/
def Chan.recv : Chan → RecvOutcome
  | ⟨c :: _, _⟩ => .received c
  | ⟨[], false⟩ => .disconnected
  | ⟨[], true⟩ => .blocked

/-- Embedding of `process_incoming_commands` from
`patcher/cancellation.rs`: a non-blocking poll of the command channel that
reports `Interrupted` on `CancelUpdate`, `Quit` or disconnection, and `Ok`
on any other command or an empty channel. -/
def process_incoming_commands (rx : Chan) : Except InterruptibleFnError Unit × Chan :=
  let (r, rx') := rx.try_recv
  match r with
  | .ok .CancelUpdate => (.error .Interrupted, rx')
  | .ok .Quit => (.error .Interrupted, rx')
  | .ok _ => (.ok (), rx')
  | .empty => (.ok (), rx')
  | .disconnected => (.error .Interrupted, rx')

/-- Embedding of `wait_for_cancellation` from `patcher/cancellation.rs`: a
blocking `recv` on the command channel; per the source, every received
command (`CancelUpdate`, `Quit`, and also any other command) as well as
disconnection yields `Interrupted`; `none` models a still-blocked call. -/
def wait_for_cancellation (rx : Chan) : Option InterruptibleFnError :=
  match rx.recv with
  | .received .CancelUpdate => some .Interrupted
  | .received .Quit => some .Interrupted
  | .received _ => some .Interrupted
  | .disconnected => some .Interrupted
  | .blocked => none

/-- Result of running a patcher routine, with an explicit constructor for a
Rust panic (such as `.unwrap()` on an `Err`). -/
inductive RunResult (α : Type) where
  | ok (a : α)
  | err (e : InterruptibleFnError)
  | panicked
deriving DecidableEq

/-- Embedding of the fallback `for server in server_list` loop of
`find_available_patch_server` in `patcher/core.rs`.  The network outcome of
`probe_patch_server` is an oracle `probe`.  Besides the result it returns
the names of the servers probed by the loop, in order, and the final
channel state.  In the cancellation branch the source evaluates
`Url::parse("").unwrap()`, embedded as a match on `urlParse ""` whose
`none` case is a panic. -/
def fallback_probe_loop (probe : PatchServerInfo → Option (ThorPatchList × Url)) :
    List PatchServerInfo → Chan → RunResult (ThorPatchList × Url) × List String × Chan
  | [], rx =>
    (.err (.Err "None of the patch servers are available at the moment"), [], rx)
  | server :: rest, rx =>
    let (cmd_res, rx') := process_incoming_commands rx
    match cmd_res with
    | .error .Interrupted =>
      match urlParse "" with
      | some u => (.ok ([], u), [], rx')
      | none => (.panicked, [], rx')
    | .error (.Err e) =>
      (.err (.Err ("Error while checking for cancellation: " ++ e)), [], rx')
    | .ok () =>
      match probe server with
      | some r => (.ok r, [server.name], rx')
      | none =>
        let (res, trace, rx'') := fallback_probe_loop probe rest rx'
        (res, server.name :: trace, rx'')

/-- Embedding of `find_available_patch_server` from `patcher/core.rs`: the
preferred server, when named and present in the list, is probed first; on
its failure (or absence) the fallback loop runs over the whole
`server_list`.  Returns the result, the names of all probed servers in
order, and the final channel state. -/
def find_available_patch_server (probe : PatchServerInfo → Option (ThorPatchList × Url))
    (server_list : List PatchServerInfo) (preferred_server_name : Option String)
    (rx : Chan) : RunResult (ThorPatchList × Url) × List String × Chan :=
  match preferred_server_name with
  | some name =>
    match server_list.find? (fun s => s.name == name) with
    | some preferred =>
      match probe preferred with
      | some r => (.ok r, [preferred.name], rx)
      | none =>
        let (res, trace, rx') := fallback_probe_loop probe server_list rx
        (res, preferred.name :: trace, rx')
    | none => fallback_probe_loop probe server_list rx
  | none => fallback_probe_loop probe server_list rx

/-- Embedding of the cache-filtering step of `interruptible_update_routine`
in `patcher/core.rs` (lines 247-256): when the cache file was read
successfully and some entry of the fetched list has the cached index, keep
only the entries with a strictly greater index; otherwise keep the whole
list.  `cache_read` is `none` when `read_cache_file` failed (absent or
unreadable cache). -/
def filter_cached_patches (patch_list : ThorPatchList) (cache_read : Option PatcherCache) :
    ThorPatchList :=
  match cache_read with
  | none => patch_list
  | some patcher_cache =>
    if patch_list.any (fun x => x.index == patcher_cache.last_patch_index) then
      patch_list.filter (fun x => decide (patcher_cache.last_patch_index < x.index))
    else
      patch_list

/-- Embedding of the final sort of `download_patches_concurrent` in
`patcher/core.rs`: `vec.sort_unstable_by(|l, r| l.info.index.cmp(&r.info.index))`,
an ascending comparison sort on `info.index`. -/
def sortPendingByIndex (v : List PendingPatch) : List PendingPatch :=
  v.mergeSort (fun l r => l.info.index ≤ r.info.index)

/-- Embedding of the error type of the gruf library (`GrufError`) as far as
`is_archive_valid` inspects it: the `EntryNotFound` case is distinguished
from every other error. -/
inductive GrufError where
  | EntryNotFound
  | Other (msg : String)
deriving DecidableEq

/-- Embedding of `is_archive_valid` from `patcher/core.rs`, as a function
of the result of the library call `ThorArchive::is_valid` on the opened
archive: `EntryNotFound` (no integrity record) is accepted as valid, any
other library error is an error, and a boolean verdict is passed through. -/
def is_archive_valid (is_valid_res : Except GrufError Bool) : Except String Bool :=
  match is_valid_res with
  | .error e =>
    match e with
    | .EntryNotFound => .ok true
    | .Other msg => .error ("Archive's integrity file is invalid: " ++ msg)
  | .ok v => .ok v

/-- Embedding of the integrity check done by
`download_patches_concurrent_inner` in `patcher/core.rs` after a download
completes: when `ensure_integrity` is set and `is_archive_valid` reports
`false`, the archive fails with a corruption error; an `is_archive_valid`
error fails the download; otherwise the archive is accepted. -/
def integrity_check (ensure_integrity : Bool) (file_name : String)
    (is_valid_res : Except GrufError Bool) : Except String Unit :=
  if ensure_integrity then
    match is_archive_valid is_valid_res with
    | .error e => .error ("Failed to check archive's integrity: '" ++ file_name ++ "': " ++ e)
    | .ok true => .ok ()
    | .ok false => .error ("Archive '" ++ file_name ++ "' is corrupt")
  else
    .ok ()

/-- Embedding of `download_patches_concurrent` from `patcher/core.rs`: the
`tokio::select!` race of `wait_for_cancellation` against
`download_patches_concurrent_inner`.  When a command is pending (or the
channel is disconnected) the cancellation arm is ready and wins, returning
its error; otherwise the inner download result (an oracle: an unordered
vector of pending patches on success, a message on failure) is taken and,
on success, sorted ascending by patch index before being returned. -/
def download_patches_concurrent (rx : Chan)
    (inner_res : Except String (List PendingPatch)) :
    Except InterruptibleFnError (List PendingPatch) :=
  match wait_for_cancellation rx with
  | some e => .error e
  | none =>
    match inner_res with
    | .error msg => .error (.Err msg)
    | .ok vec => .ok (sortPendingByIndex vec)

/-- State of the core-to-UI mpsc status channel: the queue of delivered
statuses and whether the receiving end is still alive. -/
structure StatusChan where
  queue : List PatchingStatus
  receiver_alive : Bool
deriving DecidableEq

/-- Embedding of `UiController::new` from `patcher/core.rs`: it creates a
fresh mpsc channel `(status_tx, _status_rx)` and stores only `status_tx`;
the receiver `_status_rx` is dropped when `new` returns, so the stored
sender's receiving end is already gone. -/
def UiController.new : StatusChan :=
  { queue := [], receiver_alive := false }

/-- Embedding of `UiController::dispatch_patching_status`: an mpsc send
whose result is discarded (`let _ = self.status_tx.send(status)`).  A send
enqueues the status and reports `true` when the receiver is alive, and
loses the status reporting `false` when the receiver has been dropped. -/
def dispatch_patching_status (tx : StatusChan) (status : PatchingStatus) :
    StatusChan × Bool :=
  if tx.receiver_alive then
    ({ tx with queue := tx.queue ++ [status] }, true)
  else
    (tx, false)

/-- Embedding of `NativeUi::new` from `ui/native.rs`: it creates its own
fresh mpsc channel `(status_tx, status_rx)`, keeps `status_rx` in the UI
state and drops `status_tx`; this channel is distinct from the one made by
`UiController::new`. -/
def NativeUi.new_status_channel : StatusChan :=
  { queue := [], receiver_alive := true }

/-- Observable actions of the patcher thread, used to state what the
command handlers of `patcher_thread_routine` in `patcher/core.rs` do. -/
inductive PatcherEvent where
  | tookLock
  | releasedLock
  | probedMirrors
  | ranDownloads
  | ranApply
  | deletedCacheFile
  | emitted (status : PatchingStatus)
deriving DecidableEq

/-- Embedding of `UiController::set_patching_in_progress`: dispatches
`DownloadInProgress(0, 0, 0)` when entering the busy state and `Ready` when
leaving it. -/
def set_patching_in_progress_status (value : Bool) : PatchingStatus :=
  if value then .DownloadInProgress 0 0 0 else .Ready

/-- Embedding of `start_update` from `patcher/core.rs` as its trace of
observable actions: the body only flips the patching-in-progress flag on
and off again (`set_patching_in_progress(true)` then `(false)`), with a
TODO comment in place of the update logic; it takes no lock, probes no
mirror, downloads nothing and applies nothing. -/
def start_update_events : List PatcherEvent :=
  [.emitted (set_patching_in_progress_status true),
   .emitted (set_patching_in_progress_status false)]

/-- Embedding of `manual_patch` from `patcher/core.rs` as its trace of
observable actions: like `start_update` it only flips the
patching-in-progress flag with a TODO in place of the logic. -/
def manual_patch_events : List PatcherEvent :=
  [.emitted (set_patching_in_progress_status true),
   .emitted (set_patching_in_progress_status false)]

/-- Embedding of `reset_cache` from `patcher/core.rs` as its trace of
observable actions: it removes the cache file (failures only logged). -/
def reset_cache_events : List PatcherEvent :=
  [.deletedCacheFile]

/-- Embedding of the dispatch performed by the command loop of
`patcher_thread_routine` in `patcher/core.rs` (the success path of each
match arm): the handler invoked for each received command, as its trace of
observable actions. -/
def patcher_handle_command : PatcherCommand → List PatcherEvent
  | .StartUpdate => start_update_events
  | .CancelUpdate => []
  | .ResetCache => reset_cache_events
  | .ManualPatch => manual_patch_events
  | .Quit => []

/-- Oracles for the effectful steps of `apply_patches`: whether
`apply_patch` succeeds on a given pending patch, and whether
`write_cache_file` succeeds at a given index. -/
structure ApplyOracle where
  applySucceeds : PendingPatch → Bool
  cacheWriteSucceeds : Nat → Bool

/-- Embedding of the `for (patch_number, pending_patch)` loop of
`apply_patches` in `patcher/core.rs`.  Each iteration polls the command
channel (`process_incoming_commands`), returning `Ok(())` on interruption;
applies the patch, aborting with an error on failure; attempts the cache
write at the patch's index, recording the attempt and its outcome but
continuing regardless (failures are only logged); and emits an
`InstallationInProgress` status.  Returns the result, the list of
attempted cache writes `(index, succeeded)` in order, the emitted
statuses, and the final channel state. -/
def apply_patches_loop (oracle : ApplyOracle) (total : Nat) :
    List PendingPatch → Nat → Chan →
    Except InterruptibleFnError Unit × List (Nat × Bool) × List PatchingStatus × Chan
  | [], _, rx => (.ok (), [], [], rx)
  | pending_patch :: rest, patch_number, rx =>
    let (cmd_res, rx') := process_incoming_commands rx
    match cmd_res with
    | .error .Interrupted => (.ok (), [], [], rx')
    | .error (.Err e) =>
      (.error (.Err ("Error while checking for cancellation: " ++ e)), [], [], rx')
    | .ok () =>
      if oracle.applySucceeds pending_patch then
        let write := (pending_patch.info.index,
          oracle.cacheWriteSucceeds pending_patch.info.index)
        let status := PatchingStatus.InstallationInProgress (1 + patch_number) total
        let (res, writes, statuses, rx'') :=
          apply_patches_loop oracle total rest (patch_number + 1) rx'
        (res, write :: writes, status :: statuses, rx'')
      else
        (.error (.Err ("Failed to apply patch '" ++ pending_patch.info.file_name ++ "'")),
         [], [], rx')

/-- Embedding of `apply_patches` from `patcher/core.rs`: emits the initial
`InstallationInProgress(0, total)` status then runs the sequential apply
loop over the pending patch queue. -/
def apply_patches (oracle : ApplyOracle) (pending_patch_queue : List PendingPatch)
    (rx : Chan) :
    Except InterruptibleFnError Unit × List (Nat × Bool) × List PatchingStatus × Chan :=
  let patch_count := pending_patch_queue.length
  let (res, writes, statuses, rx') :=
    apply_patches_loop oracle patch_count pending_patch_queue 0 rx
  (res, writes, PatchingStatus.InstallationInProgress 0 patch_count :: statuses, rx')

/-- Claim C1: the claim says the handler invoked on `StartUpdate` runs the
full update pipeline (mirror probing, concurrent download, sequential
apply) under the advisory update lock.  The code's handler `start_update`
is a stub: it only emits the two patching-in-progress statuses and
performs none of the pipeline actions, taking no lock. -/
theorem start_update_stub_no_pipeline :
    patcher_handle_command .StartUpdate
      = [.emitted (.DownloadInProgress 0 0 0), .emitted .Ready] ∧
    PatcherEvent.tookLock ∉ patcher_handle_command .StartUpdate ∧
    PatcherEvent.probedMirrors ∉ patcher_handle_command .StartUpdate ∧
    PatcherEvent.ranDownloads ∉ patcher_handle_command .StartUpdate ∧
    PatcherEvent.ranApply ∉ patcher_handle_command .StartUpdate := by
  decide

/-- Claim C2: the claim says every status dispatched by the patcher core is
sent on a channel whose receiving end is the UI's status receiver.  In the
code, `UiController::new` drops its receiver immediately, so every
`dispatch_patching_status` send fails and the status is lost, while the
UI's own status channel (created separately by `NativeUi::new`) is a
distinct channel. -/
theorem dispatch_status_receiver_dropped :
    UiController.new.receiver_alive = false ∧
    (∀ status : PatchingStatus,
      dispatch_patching_status UiController.new status = (UiController.new, false)) ∧
    NativeUi.new_status_channel.receiver_alive = true :=
  ⟨rfl, fun _ => rfl, rfl⟩

/-- Claim C3: the claim (following the spec's prescription) says that with
a `CancelUpdate` pending, the mirror prober's fallback loop returns an
`Interrupted` result.  The code instead evaluates
`Url::parse("").unwrap()` on that path, which panics: at a concrete
one-server list with a pending `CancelUpdate`, the prober panics rather
than returning `Interrupted`. -/
theorem find_available_patch_server_cancel_panics :
    (find_available_patch_server (fun _ => none)
      [{ name := "serverA", plist_url := "http://a/plist.txt",
         patch_url := "http://a/data/" }]
      none { queue := [.CancelUpdate], connected := true }).1
      = .panicked := by
  rfl

/-- Claim C5: the claim says that during the concurrent download set the
commands `StartUpdate`, `ManualPatch` and `ResetCache` are ignored and do
not cancel the downloads.  In the code, `wait_for_cancellation` returns
`Interrupted` for every received command, so any of these pending commands
makes the download engine return `Interrupted`. -/
theorem wait_for_cancellation_on_noncancel_commands :
    wait_for_cancellation { queue := [.StartUpdate], connected := true }
      = some .Interrupted ∧
    wait_for_cancellation { queue := [.ManualPatch], connected := true }
      = some .Interrupted ∧
    wait_for_cancellation { queue := [.ResetCache], connected := true }
      = some .Interrupted ∧
    download_patches_concurrent { queue := [.StartUpdate], connected := true } (.ok [])
      = .error .Interrupted :=
  ⟨rfl, rfl, rfl, rfl⟩

/-- Claim C8: with `ensure_integrity` set, an archive whose integrity
record is absent (the library reports `EntryNotFound`) is accepted, one
with a present and valid record is accepted, and one with a present but
invalid record fails with a corruption error. -/
theorem integrity_check_spec (file_name : String) :
    integrity_check true file_name (.error .EntryNotFound) = .ok () ∧
    integrity_check true file_name (.ok true) = .ok () ∧
    integrity_check true file_name (.ok false)
      = .error ("Archive '" ++ file_name ++ "' is corrupt") ∧
    is_archive_valid (.error .EntryNotFound) = .ok true :=
  ⟨rfl, rfl, rfl, rfl⟩

/-- Claim C10: whenever the cancellation branch of the fallback loop is
reached (a `CancelUpdate` or `Quit` is at the head of the queue when a
server is about to be probed), parsing the empty string as a URL fails, so
the `unwrap` in that branch panics and the function does not return
normally on that path. -/
theorem fallback_cancel_branch_panics
    (probe : PatchServerInfo → Option (ThorPatchList × Url))
    (server : PatchServerInfo) (rest : List PatchServerInfo)
    (queue_rest : List PatcherCommand) (connected : Bool) (c : PatcherCommand)
    (h : c = .CancelUpdate ∨ c = .Quit) :
    urlParse "" = none ∧
    (fallback_probe_loop probe (server :: rest)
      { queue := c :: queue_rest, connected := connected }).1 = .panicked := by
  rcases h with h | h <;> subst h <;> exact ⟨rfl, rfl⟩

/-- Witness for claim C10's theorem at a concrete input: a pending `Quit`
at the head of the queue makes the fallback loop panic. -/
theorem fallback_cancel_branch_panics_witness :
    urlParse "" = none ∧
    (fallback_probe_loop (fun _ => none)
      [{ name := "serverB", plist_url := "http://b/plist.txt",
         patch_url := "http://b/data/" }]
      { queue := [PatcherCommand.Quit], connected := true }).1 = .panicked :=
  fallback_cancel_branch_panics (fun _ => none) _ [] [] true .Quit (Or.inr rfl)

/-- Counterexample for claim C4: with server list `[A, B]`, preferred
server `A`, every probe failing and no pending command, the probe trace is
`["A", "A", "B"]`: the preferred mirror `A` is probed a second time during
the fallback loop, contradicting the claim that the fallback loop probes
only the remaining mirrors. -/
theorem preferred_mirror_reprobed_counterexample :
    (find_available_patch_server (fun _ => none)
      [{ name := "A", plist_url := "http://a/plist.txt", patch_url := "http://a/data/" },
       { name := "B", plist_url := "http://b/plist.txt", patch_url := "http://b/data/" }]
      (some "A") { queue := [], connected := true }).2.1 = ["A", "A", "B"] ∧
    List.count "A"
      (find_available_patch_server (fun _ => none)
        [{ name := "A", plist_url := "http://a/plist.txt", patch_url := "http://a/data/" },
         { name := "B", plist_url := "http://b/plist.txt", patch_url := "http://b/data/" }]
        (some "A") { queue := [], connected := true }).2.1 = 2 := by
  exact ⟨rfl, rfl⟩

/-- Helper: when every probe fails and no command is pending, the fallback
loop probes every server of the list in order and fails with the
no-mirror-available error. -/
theorem fallback_probe_loop_all_fail
    (probe : PatchServerInfo → Option (ThorPatchList × Url))
    (hfail : ∀ s, probe s = none) (servers : List PatchServerInfo) :
    fallback_probe_loop probe servers { queue := [], connected := true }
      = (.err (.Err "None of the patch servers are available at the moment"),
         servers.map (fun s => s.name), { queue := [], connected := true }) := by
  induction servers with
  | nil => rfl
  | cons s rest ih =>
    simp [fallback_probe_loop, process_incoming_commands, Chan.try_recv, hfail s, ih]

/-- Claim C4 (amended): when the preferred mirror is in the list and its
probe fails, the fallback loop iterates over the entire server list in
order, including the preferred mirror, so the preferred mirror is probed a
second time during the fallback loop; nothing is re-tried after the loop
ends. -/
theorem find_available_probes_preferred_then_whole_list
    (probe : PatchServerInfo → Option (ThorPatchList × Url))
    (server_list : List PatchServerInfo) (name : String)
    (preferred : PatchServerInfo)
    (hfind : server_list.find? (fun s => s.name == name) = some preferred)
    (hfail : ∀ s, probe s = none) :
    (find_available_patch_server probe server_list (some name)
       { queue := [], connected := true }).2.1
      = preferred.name :: server_list.map (fun s => s.name) := by
  simp [find_available_patch_server, hfind, hfail,
    fallback_probe_loop_all_fail probe hfail]

/-- Witness for claim C4's amended theorem at a concrete input: preferred
mirror `A` in the two-server list `[A, B]`, all probes failing. -/
theorem find_available_probes_preferred_then_whole_list_witness :
    (find_available_patch_server (fun _ => none)
       [{ name := "A", plist_url := "http://a/p.txt", patch_url := "http://a/d/" },
        { name := "B", plist_url := "http://b/p.txt", patch_url := "http://b/d/" }]
       (some "A") { queue := [], connected := true }).2.1
      = "A" :: ["A", "B"] :=
  find_available_probes_preferred_then_whole_list (fun _ => none)
    [{ name := "A", plist_url := "http://a/p.txt", patch_url := "http://a/d/" },
     { name := "B", plist_url := "http://b/p.txt", patch_url := "http://b/d/" }]
    "A" { name := "A", plist_url := "http://a/p.txt", patch_url := "http://a/d/" }
    (by rfl) (fun _ => rfl)

/-- Claim C6: when the cache is absent or unreadable the fetched list is
kept whole; when some entry of the list has index equal to the cached
`last_patch_index`, the list handed onward is exactly the entries with
index strictly greater than the cached index (as a filter of the original
list, membership characterized); when no entry equals the cached index the
entire list is kept. -/
theorem filter_cached_patches_spec (l : ThorPatchList) (c : PatcherCache) :
    filter_cached_patches l none = l ∧
    ((∃ x ∈ l, x.index = c.last_patch_index) →
      filter_cached_patches l (some c)
        = l.filter (fun x => decide (c.last_patch_index < x.index)) ∧
      ∀ p : ThorPatchInfo, p ∈ filter_cached_patches l (some c) ↔
        (p ∈ l ∧ c.last_patch_index < p.index)) ∧
    ((∀ x ∈ l, x.index ≠ c.last_patch_index) →
      filter_cached_patches l (some c) = l) := by
  refine ⟨rfl, ?_, ?_⟩
  · intro h
    have hany : l.any (fun x => x.index == c.last_patch_index) = true := by
      rcases h with ⟨x, hx, he⟩
      exact List.any_eq_true.mpr ⟨x, hx, by simp [he]⟩
    constructor
    · simp [filter_cached_patches, hany]
    · intro p
      simp [filter_cached_patches, hany, List.mem_filter]
  · intro h
    have hany : l.any (fun x => x.index == c.last_patch_index) = false := by
      rw [List.any_eq_false]
      intro x hx
      simp [h x hx]
    simp [filter_cached_patches, hany]

/-- Witness for claim C6's theorem at a concrete input (the spec's
incremental scenario): cached index 5 appears in the list `4, 5, 6, 7`, so
exactly the entries `6, 7` are kept. -/
theorem filter_cached_patches_spec_witness :
    filter_cached_patches
      [⟨4, "4.thor"⟩, ⟨5, "5.thor"⟩, ⟨6, "6.thor"⟩, ⟨7, "7.thor"⟩]
      (some ⟨5⟩)
      = [⟨6, "6.thor"⟩, ⟨7, "7.thor"⟩] := by
  have h := (filter_cached_patches_spec
    [⟨4, "4.thor"⟩, ⟨5, "5.thor"⟩, ⟨6, "6.thor"⟩, ⟨7, "7.thor"⟩] ⟨5⟩).2.1
    (by decide)
  exact h.1.trans (by decide)

/-- Claim C7: on success (no pending command, inner download succeeding
with the completion-order vector, itself a permutation of the input list),
the download engine returns a vector that is a permutation of the input
sorted ascending by `info.index`; iterated front to back, the visited
indices are therefore ascending. -/
theorem download_patches_sorted_perm (input completed : List PendingPatch)
    (hperm : List.Perm completed input) :
    ∃ out,
      download_patches_concurrent { queue := [], connected := true } (.ok completed)
        = .ok out ∧
      List.Perm out input ∧
      List.Pairwise (fun a b : PendingPatch => a.info.index ≤ b.info.index) out ∧
      List.Pairwise (fun a b : Nat => a ≤ b) (out.map (fun p => p.info.index)) := by
  refine ⟨sortPendingByIndex completed, rfl, ?_, ?_, ?_⟩
  · exact (List.mergeSort_perm completed _).trans hperm
  · have hs := @List.sorted_mergeSort PendingPatch
      (fun l r : PendingPatch => l.info.index ≤ r.info.index)
      (fun a b c hab hbc => by
        simp only [decide_eq_true_eq] at *
        omega)
      (fun a b => by
        simp only [Bool.or_eq_true, decide_eq_true_eq]
        omega)
      completed
    exact hs.imp (fun h => by simpa using h)
  · rw [List.pairwise_map]
    have hs := @List.sorted_mergeSort PendingPatch
      (fun l r : PendingPatch => l.info.index ≤ r.info.index)
      (fun a b c hab hbc => by
        simp only [decide_eq_true_eq] at *
        omega)
      (fun a b => by
        simp only [Bool.or_eq_true, decide_eq_true_eq]
        omega)
      completed
    exact hs.imp (fun h => by simpa using h)

/-- Witness for claim C7's theorem at a concrete input: the completion
order `2, 1` of a two-patch list is returned sorted as `1, 2`. -/
theorem download_patches_sorted_perm_witness :
    ∃ out,
      download_patches_concurrent { queue := [], connected := true }
        (.ok [⟨⟨2, "b.thor"⟩, "tmp/b.thor"⟩, ⟨⟨1, "a.thor"⟩, "tmp/a.thor"⟩])
        = .ok out ∧
      List.Perm out [⟨⟨2, "b.thor"⟩, "tmp/b.thor"⟩, ⟨⟨1, "a.thor"⟩, "tmp/a.thor"⟩] ∧
      List.Pairwise (fun a b : PendingPatch => a.info.index ≤ b.info.index) out ∧
      List.Pairwise (fun a b : Nat => a ≤ b) (out.map (fun p => p.info.index)) :=
  download_patches_sorted_perm _ _ (List.Perm.refl _)

/-- Helper: with no pending command, a queue whose every patch applies
successfully runs to completion, attempting one cache write per patch, at
the patch's index, in queue order, recording each write's own success
flag. -/
theorem apply_patches_loop_all_ok (oracle : ApplyOracle) (total : Nat)
    (queue : List PendingPatch) (k : Nat)
    (h : ∀ p ∈ queue, oracle.applySucceeds p = true) :
    ∃ statuses,
      apply_patches_loop oracle total queue k { queue := [], connected := true }
        = (.ok (),
           queue.map (fun p => (p.info.index, oracle.cacheWriteSucceeds p.info.index)),
           statuses, { queue := [], connected := true }) := by
  induction queue generalizing k with
  | nil => exact ⟨[], rfl⟩
  | cons p rest ih =>
    obtain ⟨statuses, hrest⟩ := ih (k + 1) (fun q hq => h q (List.mem_cons_of_mem p hq))
    refine ⟨PatchingStatus.InstallationInProgress (1 + k) total :: statuses, ?_⟩
    simp [apply_patches_loop, process_incoming_commands, Chan.try_recv,
      h p (List.mem_cons_self p rest), hrest]

/-- Claim C9: with no pending command, if every patch of the queue applies
successfully then `apply_patches` succeeds and attempts exactly one cache
write per applied patch, at that patch's index and in queue order; the
cache-write success flags (arbitrary via the oracle) do not affect the
result or stop the loop. -/
theorem apply_patches_writes_cache_each_success (oracle : ApplyOracle)
    (queue : List PendingPatch)
    (h : ∀ p ∈ queue, oracle.applySucceeds p = true) :
    ∃ writes statuses,
      apply_patches oracle queue { queue := [], connected := true }
        = (.ok (), writes, statuses, { queue := [], connected := true }) ∧
      writes = queue.map (fun p => (p.info.index, oracle.cacheWriteSucceeds p.info.index)) ∧
      writes.map Prod.fst = queue.map (fun p => p.info.index) := by
  obtain ⟨statuses, hloop⟩ := apply_patches_loop_all_ok oracle queue.length queue 0 h
  refine ⟨queue.map (fun p => (p.info.index, oracle.cacheWriteSucceeds p.info.index)),
    PatchingStatus.InstallationInProgress 0 queue.length :: statuses, ?_, rfl, ?_⟩
  · simp [apply_patches, hloop]
  · simp

/-- Witness for claim C9's theorem at a concrete input: a two-patch queue
whose every cache write fails still applies both patches, attempts both
writes (both recorded as failed) and succeeds. -/
theorem apply_patches_writes_cache_each_success_witness :
    ∃ writes statuses,
      apply_patches { applySucceeds := fun _ => true, cacheWriteSucceeds := fun _ => false }
        [⟨⟨1, "a.thor"⟩, "tmp/a.thor"⟩, ⟨⟨2, "b.thor"⟩, "tmp/b.thor"⟩]
        { queue := [], connected := true }
        = (.ok (), writes, statuses, { queue := [], connected := true }) ∧
      writes = [(1, false), (2, false)] ∧
      writes.map Prod.fst = [1, 2] := by
  obtain ⟨writes, statuses, h1, h2, h3⟩ :=
    apply_patches_writes_cache_each_success
      { applySucceeds := fun _ => true, cacheWriteSucceeds := fun _ => false }
      [⟨⟨1, "a.thor"⟩, "tmp/a.thor"⟩, ⟨⟨2, "b.thor"⟩, "tmp/b.thor"⟩]
      (fun p _ => rfl)
  exact ⟨writes, statuses, h1, h2.trans (by decide), h3.trans (by decide)⟩
